import Mathlib

/-!
Verification of the electron-fiddle core: the template provisioning cache
(src/renderer/content.ts) and the command-line dispatcher (open / test /
bisect commands).  The TypeScript source is shallowly embedded: external
collaborators (file system, network, the version catalog, the runner) are
parameters of the model, JavaScript strings are Lean strings manipulated
through their character lists, and the per-branch promise cache is explicit
state threaded through calls (in the single-threaded JS event loop the
promise is stored synchronously before any await, so concurrent callers
are a sequential interleaving of call starts).
-/

/-- Characters counted as hexadecimal by the JS regex class [0-9A-Fa-f]. -/
def isHexChar (c : Char) : Bool :=
  c.isDigit || (('a' ≤ c) && (c ≤ 'f')) || (('A' ≤ c) && (c ≤ 'F'))

/-- JS String.prototype.startsWith, on character lists. -/
def listStartsWith : List Char → List Char → Bool
  | _, [] => true
  | [], _ :: _ => false
  | c :: cs, p :: ps => c = p && listStartsWith cs ps

/-- JS String.prototype.endsWith for a single-character suffix. -/
def listEndsWith (cs : List Char) (c : Char) : Bool :=
  match cs.getLast? with
  | some d => d = c
  | none => false

/-- JS String.prototype.split with a single-character separator. -/
def splitChar (sep : Char) : List Char → List (List Char)
  | [] => [[]]
  | c :: cs =>
    let rest := splitChar sep cs
    if c = sep then [] :: rest
    else
      match rest with
      | [] => [[c]]
      | seg :: segs => (c :: seg) :: segs

/-- Parse a nonempty all-digit string as a decimal natural number. -/
def parseDecimal (cs : List Char) : Option Nat :=
  if cs ≠ [] && cs.all Char.isDigit then
    some (cs.foldl (fun n c => n * 10 + (c.toNat - 48)) 0)
  else none

/-- A parsed semantic version.  Models the semver library's `SemVer` for
plain release triples; prerelease and build tags are outside the model
(no claim in this development depends on them). -/
structure SemVer where
  major : Nat
  minor : Nat
  patch : Nat
deriving DecidableEq, Repr

/-- Models `semver.parse` for plain release versions: an optional leading
`v` followed by three dot-separated decimal components; anything else
parses to `none` (the library's `null`). -/
def semverParse (s : String) : Option SemVer :=
  let cs := match s.toList with
    | 'v' :: rest => rest
    | other => other
  match splitChar '.' cs with
  | [a, b, c] =>
    match parseDecimal a, parseDecimal b, parseDecimal c with
    | some M, some m, some p => some ⟨M, m, p⟩
    | _, _, _ => none
  | _ => none

/-- `semver.parse` applied to a possibly-absent argument:
`semver.parse(undefined)` is `null`. -/
def semverParseOpt (v : Option String) : Option SemVer :=
  v.bind semverParse

/-- Models `semver.compare`: lexicographic comparison of the triple. -/
def semverCompare (a b : SemVer) : Ordering :=
  if a.major < b.major then .lt else if b.major < a.major then .gt
  else if a.minor < b.minor then .lt else if b.minor < a.minor then .gt
  else if a.patch < b.patch then .lt else if b.patch < a.patch then .gt
  else .eq

/-- `a` sorts no later than `b` under `semverCompare` (the comparator
passed to `Array.prototype.sort` in `isReleasedMajor`). -/
def semverLe (a b : SemVer) : Bool :=
  semverCompare a b ≠ Ordering.gt

/-- Insertion step of the sort performed by `.sort(semver.compare)`. -/
def semverInsert (x : SemVer) : List SemVer → List SemVer
  | [] => [x]
  | y :: ys => if semverLe x y then x :: y :: ys else y :: semverInsert x ys

/-- The sort performed by `.sort(semver.compare)` in `isReleasedMajor`,
modelled as an insertion sort (any comparison sort yields a list whose
last element is a maximum under the comparator, which is all the code
observes via `.pop()`). -/
def semverSort : List SemVer → List SemVer
  | [] => []
  | x :: xs => semverInsert x (semverSort xs)

/-- Origin tag of a catalog version (`VersionSource` in interfaces.ts). -/
inductive VersionSource where
  | remote
  | local
deriving DecidableEq, Repr

/-- One entry of the version catalog (`ElectronVersion`): a version string
tagged with its origin. -/
structure ElectronVersion where
  version : String
  source : VersionSource
deriving DecidableEq, Repr

/-- Editor values: the mapping from logical file name to content produced
by `readFiddle` (a JS object, modelled as an association list). -/
abbrev EditorValues := List (String × String)

/-- Result of a `fetch` call that did not throw. -/
structure FetchResponse where
  ok : Bool
  status : Nat
deriving DecidableEq, Repr

/-- External collaborators of content.ts.  `fetchUrl`, `ensureDir` and
`decompressArchive` return `.error` where the JS call would throw.
`readFiddle` is code of this repository outside the embedded sources;
modelled from the spec: step 5 of the TemplateCache algorithm reads the
resulting directory into a TemplateEntry, with no failure mode of its
own. -/
structure TemplateEnv where
  versions : List ElectronVersion
  folderExists : String → Bool
  fetchUrl : String → Except String FetchResponse
  ensureDir : Except String Unit
  decompressArchive : String → Except String Unit
  readFiddle : String → EditorValues

/-- `TEMPLATES_DIR`: parent directory of the downloaded template fiddles. -/
def TEMPLATES_DIR : String := "USER_DATA_PATH/Templates"

/-- `STATIC_TEMPLATE_DIR`: the bundled fallback template directory. -/
def STATIC_TEMPLATE_DIR : String := "static/electron-quick-start"

/-- The per-branch template folder computed at the top of
`prepareTemplate`. -/
def templateFolder (branch : String) : String :=
  TEMPLATES_DIR ++ "/electron-quick-start-" ++ branch

/-- The archive URL fetched by `prepareTemplate` for a branch. -/
def archiveUrl (branch : String) : String :=
  "https://github.com/electron/electron-quick-start/archive/" ++ branch ++ ".zip"

/-- The `try` block of `prepareTemplate`: if the folder is not already on
disk, fetch the branch archive, throw on a non-ok response, ensure the
templates directory and unpack.  Any `.error` is the exception the JS
code would catch. -/
def prepareTemplateTry (env : TemplateEnv) (branch : String) : Except String Unit :=
  if env.folderExists (templateFolder branch) then Except.ok ()
  else do
    let response ← env.fetchUrl (archiveUrl branch)
    if !response.ok then
      throw (archiveUrl branch ++ " " ++ toString response.status)
    env.ensureDir
    env.decompressArchive branch

/-- `prepareTemplate`: returns the branch folder, but on any exception in
the `try` block the catch handler replaces it with the static fallback
directory; it never propagates an error. -/
def prepareTemplate (env : TemplateEnv) (branch : String) : String :=
  match prepareTemplateTry env branch with
  | Except.ok _ => templateFolder branch
  | Except.error _ => STATIC_TEMPLATE_DIR

/-- `newestRelease` computed inside `isReleasedMajor`: remote-sourced
catalog entries, parsed, sorted by `semver.compare`, last one popped. -/
def newestRemoteRelease (env : TemplateEnv) : Option SemVer :=
  (semverSort ((env.versions.filter
      (fun v => v.source = VersionSource.remote)).filterMap
      (fun v => semverParse v.version))).getLast?

/-- `isReleasedMajor`: true iff the version parses and its major is at
most the major of the newest remote release (falsy `parsed` or absent
`newestRelease` make the whole conjunction falsy). -/
def isReleasedMajor (env : TemplateEnv) (version : Option String) : Bool :=
  match semverParseOpt version, newestRemoteRelease env with
  | some parsed, some newest => parsed.major ≤ newest.major
  | _, _ => false

/-- The branch computed at the top of `getTemplate`:
`parsed?.major ? `{major}-x-y` : 'master'` — note that JS truthiness
sends a parsed major of 0 to `'master'` as well. -/
def branchOf (version : Option String) : String :=
  match semverParseOpt version with
  | some parsed => if parsed.major ≠ 0 then toString parsed.major ++ "-x-y" else "master"
  | none => "master"

/-- Mutable module state of content.ts: the `templateCache` map
(branch to settled promise value) plus a log of acquisition starts
(branch, and whether the network path `prepareTemplate` was taken rather
than the direct fallback read), newest first. -/
structure ContentState where
  templateCache : List (String × EditorValues)
  acquisitions : List (String × Bool)
deriving DecidableEq, Repr

/-- The empty initial module state. -/
def initState : ContentState := ⟨[], []⟩

/-- `getTemplate`: derive the branch, return the cached promise if one
exists, otherwise start exactly one acquisition (network preparation when
`isReleasedMajor`, else a direct read of the static fallback) and store
it in the cache before returning. -/
def getTemplate (env : TemplateEnv) (version : Option String)
    (st : ContentState) : EditorValues × ContentState :=
  let branch := branchOf version
  match st.templateCache.lookup branch with
  | some pending => (pending, st)
  | none =>
    let network := isReleasedMajor env version
    let entry :=
      if network then env.readFiddle (prepareTemplate env branch)
      else env.readFiddle STATIC_TEMPLATE_DIR
    (entry,
      ⟨(branch, entry) :: st.templateCache, (branch, network) :: st.acquisitions⟩)

/-- A sequence of `getTemplate` calls threaded through the module state,
returning each request paired with the value its caller observed. -/
def runGetTemplates (env : TemplateEnv) :
    List (Option String) → ContentState →
    List (Option String × EditorValues) × ContentState
  | [], st => ([], st)
  | v :: vs, st =>
    let out := getTemplate env v st
    let rest := runGetTemplates env vs out.2
    ((v, out.1) :: rest.1, rest.2)

/-- `getContent`: index the template of the requested version by editor
name (JS property access, `none` for an absent key). -/
def getContent (env : TemplateEnv) (name : String) (version : Option String)
    (st : ContentState) : Option String × ContentState :=
  let out := getTemplate env version st
  (out.1.lookup name, out.2)

/-- The global application handle reachable from
`window.ElectronFiddle.app` (fields beyond `getEditorValues` are not
consulted by content.ts). -/
structure AppHandle where
  getEditorValues : EditorValues

/-- The `window.ElectronFiddle` global: `app` may itself be absent. -/
structure FiddleWindow where
  app : Option AppHandle

/-- `isContentUnchanged`: `false` immediately when the global handle or
its `app` is unavailable; otherwise compare the editor value with the
expected content for the default (absent) version.  The third component
records whether the editor values and template cache were consulted. -/
def isContentUnchanged (env : TemplateEnv) (w : Option FiddleWindow)
    (name : String) (st : ContentState) : Bool × ContentState × Bool :=
  match w with
  | none => (false, st, false)
  | some fw =>
    match fw.app with
    | none => (false, st, false)
    | some app =>
      let values := app.getEditorValues
      let content := getContent env name none st
      (values.lookup name = content.1, content.2, true)

/-- Messages sent by the command dispatcher over IPC. -/
inductive IpcMessage where
  | fsOpenFiddle (path : String)
  | loadGistRequest (id : String) (confirmed : Bool)
  | setVersion (version : String)
  | fiddleBisect (good bad : String)
  | fiddleRun
deriving DecidableEq, Repr

/-- What a registered `COMMAND_DONE` handler does when the completion
event arrives: the line it logs and the exit code it applies, if any. -/
structure CommandDoneEffect where
  logLine : String
  exitCode : Option Nat
deriving DecidableEq, Repr

/-- `logWhenDone`: registers a once-handler for `COMMAND_DONE` that logs
success or failure and exits only when `exitWhenDone` was requested
(its default at the call sites in `open` is `false`). -/
def logWhenDone (name : String) (exitWhenDone : Bool) :
    Bool → CommandDoneEffect :=
  fun success =>
    ⟨"command " ++ (if success then "succeeded" else "failed") ++ ": " ++ name,
     if exitWhenDone then some (if success then 0 else 1) else none⟩

/-- Does the string contain 32 consecutive hexadecimal characters?  This
is JS `id.match(/[0-9A-Fa-f]{32}/)` being non-null: the pattern is not
anchored, so any 32-character hexadecimal run anywhere in the string
matches. -/
def containsHex32 (cs : List Char) : Bool :=
  decide (32 ≤ cs.length) &&
    (List.range (cs.length - 31)).any
      (fun k => ((cs.drop k).take 32).all isHexChar)

/-- Everything observable about one invocation of the `open` command:
the IPC messages sent (in order) and the registered `COMMAND_DONE`
handler, if any. -/
structure OpenOutcome where
  sends : List IpcMessage
  onCommandDone : Option (Bool → CommandDoneEffect)

/-- The gist id candidate computed by `open` for a non-path argument:
for arguments starting with the gist host, one trailing slash is
stripped and the final `/`-delimited segment is taken; otherwise the
bare argument itself. -/
def gistIdCandidate (source : String) : Option String :=
  if listStartsWith source.toList "https://gist.github.com".toList then
    let trimmed :=
      if listEndsWith source.toList '/' then source.toList.dropLast
      else source.toList
    (splitChar '/' trimmed).getLast?.map (fun cs => String.mk cs)
  else some source

/-- The `open` command.  `pathExists` models `fs.existsSync`.  An
existing local path sends an open-fiddle request and registers the
logging handler (without the exit flag); otherwise a gist id candidate
containing a 32-hex run sends a confirmed load-gist request; otherwise
nothing happens. -/
def openCommand (pathExists : String → Bool) (source : String) : OpenOutcome :=
  if pathExists source then
    ⟨[IpcMessage.fsOpenFiddle source],
     some (logWhenDone ("open fiddle \x22" ++ source ++ "\x22") false)⟩
  else
    match gistIdCandidate source with
    | some id =>
      if containsHex32 id.toList then
        ⟨[IpcMessage.loadGistRequest id true],
         some (logWhenDone ("open gist \x22" ++ id ++ "\x22") false)⟩
      else ⟨[], none⟩
    | none => ⟨[], none⟩

/-- Terminal outcome of one fiddle run (`RunResult` in interfaces.ts,
referenced but outside the embedded sources).  Modelled from the spec:
an enumeration of success, failure and a further non-success terminal
outcome. -/
inductive RunResult where
  | success
  | failure
  | invalid
deriving DecidableEq, Repr

/-- The `RUN_DONE` handler of the `test` command: exit code 0 exactly on
the success outcome, 1 on every other terminal outcome. -/
def testExitCode (result : RunResult) : Nat :=
  if result = RunResult.success then 0 else 1

/-- `normalizeVersion`, code of this repository outside the embedded
sources.  Modelled from the spec: the lenient cleanup applied to bisect
arguments before comparison, stripping a leading `v`. -/
def normalizeVersion (version : String) : String :=
  match version.toList with
  | 'v' :: rest => String.mk rest
  | _ => version

/-- The version-sanitizing core of the `bisect` command: normalize both
arguments, and swap them (reporting the swap) when the normalized good
compares greater than the normalized bad.  `semver.compare` throws on an
unparseable argument, modelled as `.error`; otherwise the result is the
(good, bad) pair actually sent with `FIDDLE_BISECT`, plus whether a swap
warning was printed. -/
def bisectSanitize (good bad : String) :
    Except String ((String × String) × Bool) :=
  let g := normalizeVersion good
  let b := normalizeVersion bad
  match semverParse g, semverParse b with
  | some gv, some bv =>
    if semverCompare gv bv = Ordering.gt then Except.ok ((b, g), true)
    else Except.ok ((g, b), false)
  | _, _ => Except.error "Invalid Version"

/-- Modelled from the spec: the BisectController's search loop, which is
not among the embedded sources (the dispatcher only sends the
FIDDLE_BISECT request to it).  The working range is a pair of indices
into the ordered, deduplicated version list; while more than two
versions remain, the index-based midpoint is run (`runOk` is the
RunnerBridge terminal verdict), a success makes the midpoint the new
good bound and a failure the new bad bound.  Returns the final (good,
bad) index pair and the number of run steps performed. -/
def bisectGo (runOk : Nat → Bool) (good bad : Nat) : (Nat × Nat) × Nat :=
  if h : good + 1 < bad then
    let mid := (good + bad) / 2
    if runOk mid then
      let r := bisectGo runOk mid bad
      (r.1, r.2 + 1)
    else
      let r := bisectGo runOk good mid
      (r.1, r.2 + 1)
  else ((good, bad), 0)
termination_by bad - good
decreasing_by
  all_goals omega

/-- Modelled from the spec: a bisect over the full range of an ordered
version list runs `bisectGo` from the first to the last index. -/
def runBisect (runOk : Nat → Bool) (versions : List SemVer) :
    (Nat × Nat) × Nat :=
  bisectGo runOk 0 (versions.length - 1)

/-- A small concrete environment used to exercise the model: one remote
release 10.0.0, one older remote release, one local build 999.0.0; the
network succeeds and `readFiddle` tags the entry with the directory it
read. -/
def sampleEnv : TemplateEnv where
  versions :=
    [⟨"9.2.0", VersionSource.remote⟩, ⟨"10.0.0", VersionSource.remote⟩,
     ⟨"999.0.0", VersionSource.local⟩]
  folderExists := fun _ => false
  fetchUrl := fun _ => Except.ok ⟨true, 200⟩
  ensureDir := Except.ok ()
  decompressArchive := fun _ => Except.ok ()
  readFiddle := fun dir => [("main.js", dir)]

/-- `sampleEnv` with the network down: every fetch throws. -/
def failEnv : TemplateEnv :=
  { sampleEnv with fetchUrl := fun _ => Except.error "getaddrinfo ENOTFOUND" }

/-- A 33-character string consisting solely of hexadecimal characters. -/
def hex33 : String := "0af3e1a018f5dcce4a2ff40004ef5bab5"

/-- Invariant of the content.ts module state: no branch occurs twice in
the acquisition log, and a branch has been acquired exactly when the
cache holds an entry for it. -/
def ContentInv (st : ContentState) : Prop :=
  (st.acquisitions.map Prod.fst).Nodup ∧
  ∀ b : String,
    b ∈ st.acquisitions.map Prod.fst ↔ (st.templateCache.lookup b).isSome

theorem lookup_getTemplate_self (env : TemplateEnv) (v : Option String)
    (st : ContentState) :
    (getTemplate env v st).2.templateCache.lookup (branchOf v) =
      some (getTemplate env v st).1 := by
  unfold getTemplate
  cases h : st.templateCache.lookup (branchOf v) with
  | some pending => simp [h]
  | none => simp [h, List.lookup]

theorem lookup_getTemplate_mono (env : TemplateEnv) (v : Option String)
    (st : ContentState) (b : String) (e : EditorValues)
    (h : st.templateCache.lookup b = some e) :
    (getTemplate env v st).2.templateCache.lookup b = some e := by
  unfold getTemplate
  cases hbr : st.templateCache.lookup (branchOf v) with
  | some pending => simpa [hbr] using h
  | none =>
    have hne : b ≠ branchOf v := by
      intro heq
      rw [heq, hbr] at h
      exact Option.noConfusion h
    simp [hbr, List.lookup, beq_false_of_ne hne, h]

theorem contentInv_getTemplate (env : TemplateEnv) (v : Option String)
    (st : ContentState) (hinv : ContentInv st) :
    ContentInv (getTemplate env v st).2 := by
  obtain ⟨hnd, hiff⟩ := hinv
  unfold getTemplate
  cases hbr : st.templateCache.lookup (branchOf v) with
  | some pending => simpa [hbr] using ⟨hnd, hiff⟩
  | none =>
    refine ⟨?_, ?_⟩
    · simp only [hbr]
      refine List.nodup_cons.mpr ⟨?_, hnd⟩
      intro hmem
      have := (hiff (branchOf v)).mp hmem
      rw [hbr] at this
      exact Bool.noConfusion this
    · intro b
      simp only [hbr, List.map_cons, List.mem_cons]
      by_cases hb : b = branchOf v
      · subst hb
        simp [List.lookup]
      · rw [List.lookup_cons]
        simp [beq_false_of_ne hb, hb, hiff b]

theorem lookup_runGetTemplates_mono (env : TemplateEnv)
    (vs : List (Option String)) (st : ContentState) (b : String)
    (e : EditorValues) (h : st.templateCache.lookup b = some e) :
    (runGetTemplates env vs st).2.templateCache.lookup b = some e := by
  induction vs generalizing st with
  | nil => simpa [runGetTemplates] using h
  | cons v vs ih =>
    simp only [runGetTemplates]
    exact ih _ (lookup_getTemplate_mono env v st b e h)

theorem contentInv_runGetTemplates (env : TemplateEnv)
    (vs : List (Option String)) (st : ContentState) (hinv : ContentInv st) :
    ContentInv (runGetTemplates env vs st).2 := by
  induction vs generalizing st with
  | nil => simpa [runGetTemplates] using hinv
  | cons v vs ih =>
    simp only [runGetTemplates]
    exact ih _ (contentInv_getTemplate env v st hinv)

theorem runGetTemplates_outputs_cached (env : TemplateEnv)
    (vs : List (Option String)) (st : ContentState) :
    ∀ p ∈ (runGetTemplates env vs st).1,
      (runGetTemplates env vs st).2.templateCache.lookup (branchOf p.1) =
        some p.2 := by
  induction vs generalizing st with
  | nil => simp [runGetTemplates]
  | cons v vs ih =>
    intro p hp
    simp only [runGetTemplates, List.mem_cons] at hp
    rcases hp with hp | hp
    · subst hp
      exact lookup_runGetTemplates_mono env vs _ _ _
        (lookup_getTemplate_self env v st)
    · exact ih _ p hp

theorem runGetTemplates_mem_fst (env : TemplateEnv)
    (vs : List (Option String)) (st : ContentState) :
    ∀ v ∈ vs, ∃ e, (v, e) ∈ (runGetTemplates env vs st).1 := by
  induction vs generalizing st with
  | nil => simp
  | cons w vs ih =>
    intro v hv
    simp only [List.mem_cons] at hv
    rcases hv with hv | hv
    · subst hv
      exact ⟨(getTemplate env v st).1, by simp [runGetTemplates]⟩
    · obtain ⟨e, he⟩ := ih (getTemplate env w st).2 v hv
      exact ⟨e, by simp [runGetTemplates, he]⟩

theorem contentInv_init : ContentInv initState := by
  constructor
  · simp [initState]
  · intro b
    simp [initState, List.lookup]

/-- C1: over any sequence of `getTemplate` calls starting from the empty
module state, no branch is acquired twice; every requested branch is
acquired exactly once; each caller's result is exactly the cache entry
stored for its branch; and any two calls resolving to the same branch
observe the identical template entry. -/
theorem getTemplate_once_per_branch (env : TemplateEnv)
    (vs : List (Option String)) :
    ((runGetTemplates env vs initState).2.acquisitions.map Prod.fst).Nodup ∧
    (∀ v ∈ vs,
      ((runGetTemplates env vs initState).2.acquisitions.map Prod.fst).count
        (branchOf v) = 1) ∧
    (∀ p ∈ (runGetTemplates env vs initState).1,
      (runGetTemplates env vs initState).2.templateCache.lookup
        (branchOf p.1) = some p.2) ∧
    (∀ p ∈ (runGetTemplates env vs initState).1,
      ∀ q ∈ (runGetTemplates env vs initState).1,
        branchOf p.1 = branchOf q.1 → p.2 = q.2) := by
  have hinv := contentInv_runGetTemplates env vs initState contentInv_init
  refine ⟨hinv.1, ?_, runGetTemplates_outputs_cached env vs initState, ?_⟩
  · intro v hv
    obtain ⟨e, he⟩ := runGetTemplates_mem_fst env vs initState v hv
    have hcached := runGetTemplates_outputs_cached env vs initState (v, e) he
    have hmem : branchOf v ∈
        (runGetTemplates env vs initState).2.acquisitions.map Prod.fst :=
      (hinv.2 (branchOf v)).mpr (by simp [hcached])
    exact List.count_eq_one_of_mem hinv.1 hmem
  · intro p hp q hq hbr
    have h1 := runGetTemplates_outputs_cached env vs initState p hp
    have h2 := runGetTemplates_outputs_cached env vs initState q hq
    rw [hbr, h2] at h1
    exact (Option.some.injEq _ _).mp h1.symm

/-- Witness for C1: in the sample environment, requesting 10.0.0 and then
10.3.1 acquires branch 10-x-y exactly once and both callers observe the
identical entry. -/
theorem getTemplate_once_per_branch_witness :
    ((runGetTemplates sampleEnv [some "10.0.0", some "10.3.1"]
        initState).2.acquisitions.map Prod.fst).count "10-x-y" = 1 ∧
    ((runGetTemplates sampleEnv [some "10.0.0", some "10.3.1"]
        initState).1.map Prod.snd) =
      [[("main.js", templateFolder "10-x-y")],
       [("main.js", templateFolder "10-x-y")]] := by
  constructor
  · have h := (getTemplate_once_per_branch sampleEnv
      [some "10.0.0", some "10.3.1"]).2.1 (some "10.0.0") (by decide)
    have hb : branchOf (some "10.0.0") = "10-x-y" := by decide
    rw [hb] at h
    exact h
  · decide

/-- C2: `getTemplate` never rejects.  Any exception inside the `try`
block of `prepareTemplate` (network error, non-ok status, unpack
failure) makes `prepareTemplate` answer the static fallback directory
rather than propagate; an uncached `getTemplate` call taking the network
path then resolves to the fallback's contents, and in every case
`getTemplate` resolves to some template entry. -/
theorem getTemplate_never_rejects (env : TemplateEnv) (version : Option String)
    (st : ContentState) (e : String)
    (hfail : prepareTemplateTry env (branchOf version) = Except.error e) :
    prepareTemplate env (branchOf version) = STATIC_TEMPLATE_DIR ∧
    (st.templateCache.lookup (branchOf version) = none →
      isReleasedMajor env version = true →
      (getTemplate env version st).1 = env.readFiddle STATIC_TEMPLATE_DIR) ∧
    ∃ entry st2, getTemplate env version st = (entry, st2) := by
  have hprep : prepareTemplate env (branchOf version) = STATIC_TEMPLATE_DIR := by
    unfold prepareTemplate
    rw [hfail]
  refine ⟨hprep, ?_, ⟨_, _, rfl⟩⟩
  intro hun hrel
  unfold getTemplate
  simp [hun, hrel, hprep]

/-- Witness for C2: with the network down, preparing the branch of
version 10.0.0 falls back to the static template directory. -/
theorem getTemplate_never_rejects_witness :
    prepareTemplate failEnv (branchOf (some "10.0.0")) = STATIC_TEMPLATE_DIR :=
  (getTemplate_never_rejects failEnv (some "10.0.0") initState
    "getaddrinfo ENOTFOUND" rfl).1

/-- C3 counterexample: the catalog knows the remote release 10.0.0, yet
a first `getTemplate` call with an absent version does not attempt
network acquisition — the acquisition log records branch master with the
network flag false and the entry is read from the static fallback —
whereas the claim requires a network attempt whenever the version
argument is absent (`semver.parse(undefined)` is null, so
`isReleasedMajor` is falsy for an absent version). -/
theorem getTemplate_absent_version_counterexample :
    (getTemplate sampleEnv none initState).2.acquisitions =
      [("master", false)] ∧
    (getTemplate sampleEnv none initState).1 =
      [("main.js", STATIC_TEMPLATE_DIR)] ∧
    newestRemoteRelease sampleEnv = some ⟨10, 0, 0⟩ := by decide

/-- C3 amended: on an uncached call, network acquisition is attempted if
and only if the version argument is present and parseable, the catalog
knows at least one remote-sourced release, and the parsed major is at
most the newest remote major; in every other case (absent version,
unparseable version, unreleased/local major, empty remote catalog) the
bundled static fallback directory is read directly. -/
theorem getTemplate_network_iff (env : TemplateEnv) (version : Option String)
    (st : ContentState)
    (hun : st.templateCache.lookup (branchOf version) = none) :
    ((getTemplate env version st).2.acquisitions.head? =
      some (branchOf version, isReleasedMajor env version)) ∧
    (isReleasedMajor env version = true ↔
      ∃ p w, semverParseOpt version = some p ∧
        newestRemoteRelease env = some w ∧ p.major ≤ w.major) ∧
    (isReleasedMajor env version = false →
      (getTemplate env version st).1 = env.readFiddle STATIC_TEMPLATE_DIR) := by
  refine ⟨?_, ?_, ?_⟩
  · unfold getTemplate
    simp [hun]
  · unfold isReleasedMajor
    cases hp : semverParseOpt version with
    | none => simp
    | some p =>
      cases hw : newestRemoteRelease env with
      | none => simp
      | some w => simp [decide_eq_true_eq]
  · intro hrel
    unfold getTemplate
    simp [hun, hrel]

/-- Witness for the amended C3: version 999.0.0 (a local build newer
than every remote release) resolves directly from the static fallback. -/
theorem getTemplate_network_iff_witness :
    (getTemplate sampleEnv (some "999.0.0") initState).1 =
      sampleEnv.readFiddle STATIC_TEMPLATE_DIR :=
  ((getTemplate_network_iff sampleEnv (some "999.0.0") initState rfl).2.2)
    (by decide)

/-- C4 counterexample: version 0.1.0 has a resolvable semver major (0),
so the claim requires branch 0-x-y, but the branch computed by
`getTemplate` is master: the JS truthiness test `parsed?.major ?`
treats a parsed major of 0 like an unresolvable one. -/
theorem branchOf_zero_major_counterexample :
    semverParseOpt (some "0.1.0") = some ⟨0, 1, 0⟩ ∧
    branchOf (some "0.1.0") = "master" ∧
    "master" ≠ "0-x-y" := by decide

/-- C4 amended: the cache key is the string `{major}-x-y` exactly when a
major is resolvable from the version and nonzero, and the literal
master when the version is absent, unparseable, or parses with major
0. -/
theorem branchOf_spec (version : Option String) :
    (∀ p, semverParseOpt version = some p → 0 < p.major →
      branchOf version = toString p.major ++ "-x-y") ∧
    (semverParseOpt version = none → branchOf version = "master") ∧
    (∀ p, semverParseOpt version = some p → p.major = 0 →
      branchOf version = "master") := by
  refine ⟨?_, ?_, ?_⟩
  · intro p hp hpos
    unfold branchOf
    rw [hp]
    simp [Nat.pos_iff_ne_zero.mp hpos]
  · intro hp
    unfold branchOf
    rw [hp]
  · intro p hp hzero
    unfold branchOf
    rw [hp]
    simp [hzero]

/-- Witness for the amended C4: version 12.0.3 is cached under branch
12-x-y. -/
theorem branchOf_spec_witness : branchOf (some "12.0.3") = "12-x-y" := by
  have h := (branchOf_spec (some "12.0.3")).1 ⟨12, 0, 3⟩ (by decide) (by decide)
  simpa using h

/-- C5 counterexample: the gist pattern is matched unanchored, so the
33-character hexadecimal argument hex33 — which is not a 32-character
hexadecimal string — still triggers a load-gist request, and the request
carries the whole 33-character argument as its id. -/
theorem openCommand_hex33_counterexample :
    (openCommand (fun _ => false) hex33).sends =
      [IpcMessage.loadGistRequest hex33 true] ∧
    hex33.length = 33 := by decide

/-- C5 amended: for a non-path argument, the id candidate is the bare
argument or, for arguments starting with the gist host, the final
slash-delimited segment after stripping one trailing slash; a load-gist
request carrying exactly the candidate is emitted iff the candidate
contains a run of 32 consecutive hexadecimal characters; otherwise
nothing is sent and no completion handler is registered (silent
no-op). -/
theorem openCommand_gist_spec (pathExists : String → Bool) (source : String)
    (id : String) (hnp : pathExists source = false)
    (hid : gistIdCandidate source = some id) :
    (containsHex32 id.toList = true →
      (openCommand pathExists source).sends =
        [IpcMessage.loadGistRequest id true]) ∧
    (containsHex32 id.toList = false →
      (openCommand pathExists source).sends = [] ∧
      (openCommand pathExists source).onCommandDone = none) := by
  constructor <;> intro hc <;> unfold openCommand <;>
    simp [hnp, hid, String.toList] at hc ⊢ <;> simp [hc]

/-- Witness for the amended C5: the three example inputs from the spec —
a gist URL with a trailing slash, a bare id, and a non-gist string. -/
theorem openCommand_gist_spec_witness :
    (openCommand (fun _ => false)
      "https://gist.github.com/ckerr/af3e1a018f5dcce4a2ff40004ef5bab5/").sends =
      [IpcMessage.loadGistRequest "af3e1a018f5dcce4a2ff40004ef5bab5" true] ∧
    (openCommand (fun _ => false) "af3e1a018f5dcce4a2ff40004ef5bab5").sends =
      [IpcMessage.loadGistRequest "af3e1a018f5dcce4a2ff40004ef5bab5" true] ∧
    (openCommand (fun _ => false) "not-a-gist-or-path").sends = [] :=
  ⟨(openCommand_gist_spec (fun _ => false)
      "https://gist.github.com/ckerr/af3e1a018f5dcce4a2ff40004ef5bab5/"
      "af3e1a018f5dcce4a2ff40004ef5bab5" rfl (by decide)).1 (by decide),
   (openCommand_gist_spec (fun _ => false)
      "af3e1a018f5dcce4a2ff40004ef5bab5"
      "af3e1a018f5dcce4a2ff40004ef5bab5" rfl (by decide)).1 (by decide),
   ((openCommand_gist_spec (fun _ => false) "not-a-gist-or-path"
      "not-a-gist-or-path" rfl (by decide)).2 (by decide)).1⟩

theorem bisectGo_fuel_spec (runOk : Nat → Bool) :
    ∀ fuel good bad, bad - good ≤ fuel → good + 1 ≤ bad →
      (bisectGo runOk good bad).1.2 = (bisectGo runOk good bad).1.1 + 1 ∧
      good ≤ (bisectGo runOk good bad).1.1 ∧
      (bisectGo runOk good bad).1.2 ≤ bad ∧
      (bisectGo runOk good bad).2 ≤ Nat.clog 2 (bad - good) := by
  intro fuel
  induction fuel with
  | zero =>
    intro good bad h1 h2
    exact ((by omega : False)).elim
  | succ n ih =>
    intro good bad h1 h2
    by_cases h : good + 1 < bad
    · rw [bisectGo, dif_pos h]
      have hg : good < (good + bad) / 2 := by omega
      have hb : (good + bad) / 2 < bad := by omega
      have hstep : Nat.clog 2 (bad - good) =
          Nat.clog 2 ((bad - good + 2 - 1) / 2) + 1 :=
        Nat.clog_of_two_le (by norm_num) (by omega)
      cases hrun : runOk ((good + bad) / 2) with
      | true =>
        simp only [hrun, if_true]
        have ihm := ih ((good + bad) / 2) bad (by omega) (by omega)
        have hmono : Nat.clog 2 (bad - (good + bad) / 2) ≤
            Nat.clog 2 ((bad - good + 2 - 1) / 2) :=
          Nat.clog_mono_right 2 (by omega)
        exact ⟨ihm.1, by omega, ihm.2.2.1, by omega⟩
      | false =>
        simp only [hrun, if_false, Bool.false_eq_true]
        have ihm := ih good ((good + bad) / 2) (by omega) (by omega)
        have hmono : Nat.clog 2 ((good + bad) / 2 - good) ≤
            Nat.clog 2 ((bad - good + 2 - 1) / 2) :=
          Nat.clog_mono_right 2 (by omega)
        exact ⟨ihm.1, ihm.2.1, by omega, by omega⟩
    · rw [bisectGo, dif_neg h]
      exact ⟨show bad = good + 1 by omega, show good ≤ good from le_refl good,
        show bad ≤ bad from le_refl bad, Nat.zero_le _⟩

/-- C6: over the full index range of an ordered, deduplicated list of N
versions, the modelled BisectController replaces the good bound with the
index-based midpoint on a successful run and the bad bound on a failed
run, the midpoint lying strictly inside the range so the range narrows
strictly each iteration; it performs at most ceil(log2 N) run steps and
ends on a pair of indices that are adjacent in the list. -/
theorem runBisect_spec (runOk : Nat → Bool) (versions : List SemVer)
    (h2 : 2 ≤ versions.length) :
    ((runBisect runOk versions).1.2 = (runBisect runOk versions).1.1 + 1) ∧
    ((runBisect runOk versions).1.2 ≤ versions.length - 1) ∧
    ((runBisect runOk versions).2 ≤ Nat.clog 2 versions.length) ∧
    (∀ g b, g + 1 < b →
      g < (g + b) / 2 ∧ (g + b) / 2 < b ∧
      (runOk ((g + b) / 2) = true →
        bisectGo runOk g b =
          ((bisectGo runOk ((g + b) / 2) b).1,
           (bisectGo runOk ((g + b) / 2) b).2 + 1)) ∧
      (runOk ((g + b) / 2) = false →
        bisectGo runOk g b =
          ((bisectGo runOk g ((g + b) / 2)).1,
           (bisectGo runOk g ((g + b) / 2)).2 + 1))) := by
  have hcore := bisectGo_fuel_spec runOk (versions.length - 1) 0
    (versions.length - 1) (by omega) (by omega)
  refine ⟨hcore.1, hcore.2.2.1, ?_, ?_⟩
  · have hmono : Nat.clog 2 (versions.length - 1 - 0) ≤
        Nat.clog 2 versions.length :=
      Nat.clog_mono_right 2 (by omega)
    have := hcore.2.2.2
    unfold runBisect
    omega
  · intro g b hgb
    refine ⟨by omega, by omega, ?_, ?_⟩ <;> intro hrun <;>
      rw [bisectGo, dif_pos hgb] <;> simp [hrun]

/-- Witness for C6: bisecting four versions with the regression between
indices 1 and 2 ends on the adjacent pair and uses at most
ceil(log2 4) = 2 runs. -/
theorem runBisect_spec_witness :
    ((runBisect (fun i => decide (i ≤ 1))
        [⟨10, 0, 0⟩, ⟨11, 0, 0⟩, ⟨12, 0, 0⟩, ⟨13, 0, 0⟩]).1.2 =
      (runBisect (fun i => decide (i ≤ 1))
        [⟨10, 0, 0⟩, ⟨11, 0, 0⟩, ⟨12, 0, 0⟩, ⟨13, 0, 0⟩]).1.1 + 1) ∧
    ((runBisect (fun i => decide (i ≤ 1))
        [⟨10, 0, 0⟩, ⟨11, 0, 0⟩, ⟨12, 0, 0⟩, ⟨13, 0, 0⟩]).2 ≤
      Nat.clog 2
        ([⟨10, 0, 0⟩, ⟨11, 0, 0⟩, ⟨12, 0, 0⟩, ⟨13, 0, 0⟩] :
          List SemVer).length) :=
  ⟨(runBisect_spec (fun i => decide (i ≤ 1))
      [⟨10, 0, 0⟩, ⟨11, 0, 0⟩, ⟨12, 0, 0⟩, ⟨13, 0, 0⟩] (by decide)).1,
   (runBisect_spec (fun i => decide (i ≤ 1))
      [⟨10, 0, 0⟩, ⟨11, 0, 0⟩, ⟨12, 0, 0⟩, ⟨13, 0, 0⟩] (by decide)).2.2.1⟩

/-- C7 counterexample: for an existing local path the dispatcher emits
the open-fiddle request and registers the completion logger, but the
registered handler carries no exit — `logWhenDone` is called without
`exitWhenDone`, whose default is false — so the process does not exit
with code 0 on success (nor 1 on failure), contradicting the claim. -/
theorem openCommand_local_no_exit_counterexample :
    (openCommand (fun _ => true) "/fiddle").sends =
      [IpcMessage.fsOpenFiddle "/fiddle"] ∧
    ((openCommand (fun _ => true) "/fiddle").onCommandDone.map
      (fun h => ((h true).exitCode, (h false).exitCode))) =
      some (none, none) := by decide

/-- C7 amended: for an existing local path the dispatcher emits exactly
one open-fiddle request and registers a command-done handler that logs
whether the open succeeded or failed but applies no exit code (the
`exitWhenDone` flag defaults to false at this call site). -/
theorem openCommand_local_path (pathExists : String → Bool) (source : String)
    (hex : pathExists source = true) :
    (openCommand pathExists source).sends =
      [IpcMessage.fsOpenFiddle source] ∧
    (openCommand pathExists source).onCommandDone =
      some (logWhenDone ("open fiddle \x22" ++ source ++ "\x22") false) ∧
    (∀ success,
      (logWhenDone ("open fiddle \x22" ++ source ++ "\x22") false
        success).exitCode = none) := by
  refine ⟨?_, ?_, ?_⟩
  · unfold openCommand
    simp [hex]
  · unfold openCommand
    simp [hex]
  · intro success
    unfold logWhenDone
    simp

/-- Witness for the amended C7. -/
theorem openCommand_local_path_witness :
    (openCommand (fun _ => true) "/home/user/fiddle").sends =
      [IpcMessage.fsOpenFiddle "/home/user/fiddle"] :=
  (openCommand_local_path (fun _ => true) "/home/user/fiddle" rfl).1

theorem semverCompare_gt_asymm (a b : SemVer)
    (h : semverCompare a b = Ordering.gt) :
    semverCompare b a ≠ Ordering.gt := by
  unfold semverCompare at h ⊢
  split_ifs at h ⊢ <;> simp_all

/-- C8: the bisect command normalizes both version arguments; when the
normalized good compares greater than the normalized bad the pair is
swapped with a warning, and in either case the pair carried by the
bisect request is ordered good at most bad under semver comparison. -/
theorem bisectSanitize_orders (good bad : String) (gv bv : SemVer)
    (hg : semverParse (normalizeVersion good) = some gv)
    (hb : semverParse (normalizeVersion bad) = some bv) :
    (semverCompare gv bv = Ordering.gt →
      bisectSanitize good bad =
        Except.ok ((normalizeVersion bad, normalizeVersion good), true)) ∧
    (semverCompare gv bv ≠ Ordering.gt →
      bisectSanitize good bad =
        Except.ok ((normalizeVersion good, normalizeVersion bad), false)) ∧
    (∀ g2 b2 swapped,
      bisectSanitize good bad = Except.ok ((g2, b2), swapped) →
      ∃ g2v b2v, semverParse g2 = some g2v ∧ semverParse b2 = some b2v ∧
        semverCompare g2v b2v ≠ Ordering.gt) := by
  have hmain : bisectSanitize good bad =
      if semverCompare gv bv = Ordering.gt then
        Except.ok ((normalizeVersion bad, normalizeVersion good), true)
      else Except.ok ((normalizeVersion good, normalizeVersion bad), false) := by
    unfold bisectSanitize
    simp only [hg, hb]
  by_cases hc : semverCompare gv bv = Ordering.gt
  · rw [hmain, if_pos hc]
    refine ⟨fun _ => rfl, fun hn => absurd hc hn, ?_⟩
    intro g2 b2 swapped heq
    simp only [Except.ok.injEq, Prod.mk.injEq] at heq
    obtain ⟨⟨h4, h5⟩, -⟩ := heq
    subst h4
    subst h5
    exact ⟨bv, gv, hb, hg, semverCompare_gt_asymm gv bv hc⟩
  · rw [hmain, if_neg hc]
    refine ⟨fun hgt => absurd hgt hc, fun _ => rfl, ?_⟩
    intro g2 b2 swapped heq
    simp only [Except.ok.injEq, Prod.mk.injEq] at heq
    obtain ⟨⟨h4, h5⟩, -⟩ := heq
    subst h4
    subst h5
    exact ⟨gv, bv, hg, hb, hc⟩

/-- Witness for C8: good 11.2.0 and bad 10.0.0 arrive out of order and
are swapped, so the request carries good 10.0.0 and bad 11.2.0. -/
theorem bisectSanitize_orders_witness :
    bisectSanitize "11.2.0" "10.0.0" =
      Except.ok (("10.0.0", "11.2.0"), true) :=
  (bisectSanitize_orders "11.2.0" "10.0.0" ⟨11, 2, 0⟩ ⟨10, 0, 0⟩
    (by decide) (by decide)).1 (by decide)

/-- C9: after a test command, the process exit code applied by the
RUN_DONE handler is 0 exactly when the terminal result is the success
outcome, and 1 for every other terminal outcome. -/
theorem testExitCode_success_iff (result : RunResult) :
    (testExitCode result = 0 ↔ result = RunResult.success) ∧
    (testExitCode result = 1 ↔ result ≠ RunResult.success) := by
  cases result <;> simp [testExitCode]

/-- C10: when the global handle `window.ElectronFiddle` or its `app`
field is unavailable, `isContentUnchanged` resolves to false, leaves the
template cache untouched and consults neither the editor values nor the
template cache, raising no error. -/
theorem isContentUnchanged_no_handle (env : TemplateEnv) (name : String)
    (st : ContentState) (w : Option FiddleWindow)
    (h : w = none ∨ ∃ fw, w = some fw ∧ fw.app = none) :
    isContentUnchanged env w name st = (false, st, false) := by
  rcases h with h | ⟨fw, hw, happ⟩
  · subst h
    rfl
  · subst hw
    obtain ⟨app⟩ := fw
    cases app with
    | none => rfl
    | some a => exact Option.noConfusion happ

/-- Witness for C10: both unavailable shapes of the global handle. -/
theorem isContentUnchanged_no_handle_witness :
    isContentUnchanged sampleEnv none "main.js" initState =
      (false, initState, false) ∧
    isContentUnchanged sampleEnv (some ⟨none⟩) "main.js" initState =
      (false, initState, false) :=
  ⟨isContentUnchanged_no_handle sampleEnv "main.js" initState none
      (Or.inl rfl),
   isContentUnchanged_no_handle sampleEnv "main.js" initState (some ⟨none⟩)
      (Or.inr ⟨⟨none⟩, rfl, rfl⟩)⟩
